import Mathlib

/-
  Verification of the HRMS front-end (candidate pipeline, intake, gateway,
  session modules) against its natural-language specification.

  The JavaScript modules are shallowly embedded: pure helpers become Lean
  functions, stateful handlers become explicit state-passing functions, and
  each remote round-trip is a parameter describing the remote outcome.
  String-processing helpers are implemented over `List Char` by structural
  recursion so that every definition evaluates inside the kernel.
-/

namespace HRMS

/-! ## String helpers (kernel-computable embeddings of the JS string operations) -/

/-- Embeds JS `String.prototype.toLowerCase` (ASCII case folding, which is all
the repository's data uses). -/
def lowerStr (s : String) : String := ⟨s.data.map Char.toLower⟩

/-- Character-list prefix test. -/
def isPrefixList : List Char → List Char → Bool
  | [], _ => true
  | _ :: _, [] => false
  | a :: as, b :: bs => a == b && isPrefixList as bs

/-- Character-list infix (substring) test: embeds JS `String.prototype.includes`. -/
def isSubList (needle : List Char) : List Char → Bool
  | [] => needle.isEmpty
  | c :: cs => isPrefixList needle (c :: cs) || isSubList needle cs

/-- `containsStr hay needle` embeds JS `hay.includes(needle)`. -/
def containsStr (hay needle : String) : Bool := isSubList needle.data hay.data

/-- Splits a character list at every occurrence of `sep`, JS
`String.prototype.split` semantics (an empty input yields one empty field). -/
def splitChar (sep : Char) : List Char → List (List Char)
  | [] => [[]]
  | c :: cs =>
    let rest := splitChar sep cs
    if c == sep then [] :: rest
    else match rest with
      | h :: t => (c :: h) :: t
      | [] => [[c]]

/-- `splitStr sep s` embeds JS `s.split(sep)` for a single-character separator. -/
def splitStr (sep : Char) (s : String) : List String :=
  (splitChar sep s.data).map fun cs => ⟨cs⟩

/-- Embeds JS `String.prototype.trim` (whitespace stripped from both ends). -/
def trimStr (s : String) : String :=
  ⟨((s.data.dropWhile Char.isWhitespace).reverse.dropWhile Char.isWhitespace).reverse⟩

/-- Joins fields with a separator character: embeds JS `Array.prototype.join`. -/
def joinWith (sep : Char) : List String → String
  | [] => ""
  | [x] => x
  | x :: y :: rest => x ++ ⟨[sep]⟩ ++ joinWith sep (y :: rest)

/-- Embeds the JS regex replacement `filename.replace(/\.[^.]+$/, '')`: if the
string ends in a dot followed by at least one non-dot character, that final
extension (dot included) is removed; otherwise the string is unchanged. -/
def stripExt (s : String) : String :=
  let r := s.data.reverse
  let pre := r.takeWhile fun c => !(c == '.')
  match r.dropWhile (fun c => !(c == '.')) with
  | '.' :: rest => if pre.isEmpty then s else ⟨rest.reverse⟩
  | _ => s

/-- Embeds the JS regex test `/^\d{10}$/` (exactly ten ASCII digits). -/
def isTenDigits (s : String) : Bool :=
  s.data.length == 10 && s.data.all Char.isDigit

/-! ## Configuration constants (from config.js `CONFIG`) -/

def ALLOWED_CV_EXTENSIONS : List String := [".pdf", ".doc", ".docx"]

def MAX_FILE_SIZE : Nat := 5 * 1024 * 1024

def CANDIDATE_STAGES : List String :=
  ["Shortlisting", "Telephonic", "Owner Discussion", "Schedule Interview",
   "Walk-in", "HR Interview", "Tests", "Final Review", "Selected", "Rejected"]

/-! ## Intake: filename parsing (HR module, `parseFilename`) -/

structure ParsedFilename where
  name : String
  mobile : String
  source : String
deriving DecidableEq, Repr

/-- Embeds HR.parseFilename: strip the final extension, split on underscores,
require at least 3 parts, trim the first two parts and the rejoined tail, and
require the trimmed second part to be exactly ten digits.  Returns `none`
exactly where the JS returns `{ isValid: false }`. -/
def parseFilename (filename : String) : Option ParsedFilename :=
  let withoutExt := stripExt filename
  let parts := splitStr '_' withoutExt
  match parts with
  | p0 :: p1 :: p2 :: rest =>
    let name := trimStr p0
    let mobile := trimStr p1
    let source := trimStr (joinWith '_' (p2 :: rest))
    if isTenDigits mobile then some ⟨name, mobile, source⟩ else none
  | _ => none

/-! ## Intake: per-file validation (utils.js and HR.handleFiles) -/

/-- A raw uploaded file as the intake code sees it: only `name` and `size` are
ever consulted; `content` stands for the opaque file payload. -/
structure FileEntry where
  name : String
  size : Nat
  content : String
deriving DecidableEq, Repr

/-- Embeds Utils.isValidFileType: take everything after the last dot (the whole
name when there is no dot), lowercase it, prepend a dot, and test membership in
the allowed-extension list. -/
def isValidFileType (filename : String) (allowedExtensions : List String) : Bool :=
  let ext := "." ++ lowerStr ((splitStr '.' filename).getLastD "")
  allowedExtensions.contains ext

/-- Embeds Utils.isValidFileSize at its default maximum `CONFIG.MAX_FILE_SIZE`. -/
def isValidFileSize (fileSize : Nat) : Bool :=
  fileSize ≤ MAX_FILE_SIZE

/-- An accepted intake entry, as pushed onto `validFiles` by HR.handleFiles. -/
structure ValidFile where
  file : FileEntry
  name : String
  mobile : String
  source : String
  filename : String
deriving DecidableEq, Repr

inductive Classified where
  | accepted (v : ValidFile)
  | rejected (reason : String)
deriving DecidableEq, Repr

/-- The per-file body of HR.handleFiles: extension check, then size check, then
filename parse; the first failing check rejects the file with the corresponding
message, otherwise the parsed entry is accepted. -/
def classifyFile (f : FileEntry) : Classified :=
  if !isValidFileType f.name ALLOWED_CV_EXTENSIONS then
    .rejected (f.name ++ ": Invalid file type")
  else if !isValidFileSize f.size then
    .rejected (f.name ++ ": File too large (max 5MB)")
  else
    match parseFilename f.name with
    | none => .rejected (f.name ++ ": Invalid format (use Name_Mobile_Source.pdf)")
    | some p => .accepted ⟨f, p.name, p.mobile, p.source, f.name⟩

/-- Embeds the classification loop of HR.handleFiles: each file is pushed, in
input order, onto either the `validFiles` or the `errors` list. -/
def handleFiles : List FileEntry → List ValidFile × List String
  | [] => ([], [])
  | f :: fs =>
    let rest := handleFiles fs
    match classifyFile f with
    | .accepted v => (v :: rest.1, rest.2)
    | .rejected r => (rest.1, r :: rest.2)

/-- Embeds the tail of HR.handleFiles, which appends the newly accepted entries
to the module-level `selectedFiles` list (`selectedFiles = [...selectedFiles,
...validFiles]`) and reports the errors. -/
def handleFilesState (selectedFiles : List ValidFile) (files : List FileEntry) :
    List ValidFile × List String :=
  (selectedFiles ++ (handleFiles files).1, (handleFiles files).2)

/-! ## CV upload submission (HR.handleCVUpload) -/

/-- The observable outcome of HR.handleCVUpload: either one of the two
pre-network validation warnings (each an early return before any gateway
call), or the single `API.candidates.uploadCVs` call with its payload. -/
inductive UploadOutcome where
  | warnSelectFiles
  | warnSelectRequirement
  | upload (files : List ValidFile) (requirementId : String)
deriving DecidableEq, Repr

/-- Embeds HR.handleCVUpload: an empty `selectedFiles` list or an empty
requirement selection short-circuits with a warning toast; only otherwise is
the upload request issued. -/
def handleCVUpload (selectedFiles : List ValidFile) (requirementId : String) :
    UploadOutcome :=
  if selectedFiles.length == 0 then .warnSelectFiles
  else if requirementId == "" then .warnSelectRequirement
  else .upload selectedFiles requirementId

/-! ## Candidate data model (fields as used by the HR module) -/

structure TimelineEntry where
  action : String
  timestamp : String
  byUser : String
  notes : Option String
deriving DecidableEq, Repr

/-- A candidate record as the HR module reads it from the server.  The JS field
`by` of a timeline entry is renamed `byUser` because `by` is a Lean keyword. -/
structure Candidate where
  id : String
  name : String
  mobile : String
  role : String
  source : String
  status : String
  current_stage : String
  requirement_id : String
  timeline : List TimelineEntry
deriving DecidableEq, Repr

/-- `Selected` and `Rejected` are the terminal members of `CANDIDATE_STAGES`. -/
def terminalStage (stage : String) : Bool :=
  stage == "Selected" || stage == "Rejected"

/-- The module-level mutable state of the HR module that candidate actions can
observe: the last-loaded in-memory candidate list. -/
structure HRState where
  candidates : List Candidate
deriving DecidableEq, Repr

/-- Embeds HR.loadCandidatesByStage given the outcome of the
`API.candidates.getByStage` round-trip: on success the in-memory list is
replaced by the server data; on failure (catch branch) only a toast is shown
and the list is left as it was. -/
def loadCandidatesByStage (st : HRState) (response : Except String (List Candidate)) :
    HRState :=
  match response with
  | .ok data => { st with candidates := data }
  | .error _ => st

/-- Embeds HR.handleTelephonicSubmit given the outcomes of its two remote
round-trips: the `API.candidates.updateTelephonic` persistence call and, on its
success only, the `loadCandidatesByStage` refresh.  An invalid form is an early
return; a failed persistence call reaches only the catch branch (toast), so the
state is untouched. -/
def handleTelephonicSubmit (st : HRState) (formValid : Bool)
    (updateResult : Except String Unit)
    (refreshResponse : Except String (List Candidate)) : HRState :=
  if !formValid then st
  else
    match updateResult with
    | .error _ => st
    | .ok _ => loadCandidatesByStage st refreshResponse

/-! ## Candidate actions (HR.handleCandidateAction, HR.handleRejectCandidate) -/

/-- The `actionModals` table of HR.handleCandidateAction. -/
def actionModals : List (String × String) :=
  [("shortlist", "shortlist-modal"),
   ("telephonic", "telephonic-modal"),
   ("owner-discussion", "owner-discussion-modal"),
   ("schedule", "schedule-modal"),
   ("walkin", "walkin-modal"),
   ("hr-interview", "hr-interview-modal"),
   ("test", "test-modal")]

/-- What a candidate-action click does before any form is submitted: either
nothing at all (silent early return) or opening one modal.  No network call is
made by either handler; network traffic happens only on a later form submit. -/
inductive ActionOutcome where
  | noop
  | openModal (modalId : String)
deriving DecidableEq, Repr

/-- Embeds HR.handleCandidateAction: look the clicked candidate id up in the
in-memory list (`if (!candidate) return;`), then open the modal the
`actionModals` table assigns to the clicked action, if any.  The candidate's
`current_stage` is never consulted. -/
def handleCandidateAction (candidates : List Candidate) (candidateId action : String) :
    ActionOutcome :=
  match candidates.find? (fun c => c.id == candidateId) with
  | none => .noop
  | some _ =>
    match actionModals.lookup action with
    | some modalId => .openModal modalId
    | none => .noop

/-- Embeds HR.handleRejectCandidate / HR.openRejectionModal: look the candidate
up (`if (!candidate) return;`) and open the rejection modal; the candidate's
`current_stage` is never consulted. -/
def handleRejectCandidate (candidates : List Candidate) (candidateId : String) :
    ActionOutcome :=
  match candidates.find? (fun c => c.id == candidateId) with
  | none => .noop
  | some _ => .openModal "rejection-modal"

/-! ## Search and requirement filter (HR.handleCandidateSearch, HR.handleRequirementFilter) -/

/-- Embeds HR.handleCandidateSearch: lowercase the query; an empty query
re-renders the full in-memory list; otherwise filter the in-memory list by
substring over lowercased `name`, raw `mobile`, and lowercased `role`.  Pure:
no remote call appears anywhere in the source handler. -/
def handleCandidateSearch (candidates : List Candidate) (input : String) :
    List Candidate :=
  let searchTerm := lowerStr input
  if searchTerm == "" then candidates
  else
    candidates.filter fun c =>
      containsStr (lowerStr c.name) searchTerm ||
      containsStr c.mobile searchTerm ||
      containsStr (lowerStr c.role) searchTerm

/-- Modelled from the spec wording of the search predicate: a case-insensitive
substring test over `name`, `mobile`, and `role`.  Used only to compare the
spec's description against the code's `handleCandidateSearch`. -/
def ciSearchMatch (query : String) (c : Candidate) : Bool :=
  containsStr (lowerStr c.name) (lowerStr query) ||
  containsStr (lowerStr c.mobile) (lowerStr query) ||
  containsStr (lowerStr c.role) (lowerStr query)

/-- Embeds HR.getHRPage: the page slug derived from
`window.location.pathname`, with the source's `includes` checks applied in
order and `review` as the fallback. -/
def getHRPage (path : String) : String :=
  if containsStr path "review" then "review"
  else if containsStr path "cv-upload" then "cv-upload"
  else if containsStr path "shortlisting" then "shortlisting"
  else if containsStr path "telephonic" then "telephonic"
  else if containsStr path "owner-discussion" then "owner-discussion"
  else if containsStr path "schedule" then "schedule"
  else if containsStr path "walk-in" then "walk-ins"
  else if containsStr path "hr-interview" then "hr-interview"
  else if containsStr path "tests" then "tests"
  else "review"

/-- The only values HR.init can assign to the module variable `currentStage`:
the page slugs `getHRPage` returns.  Note these are the lowercase hyphenated
slugs, not the canonical stage names of `CANDIDATE_STAGES`. -/
def pageSlugs : List String :=
  ["review", "cv-upload", "shortlisting", "telephonic", "owner-discussion",
   "schedule", "walk-ins", "hr-interview", "tests"]

/-- The observable outcome of HR.handleRequirementFilter: with no requirement
selected it reloads the stage list remotely; with a requirement id it fetches
the requirement-scoped endpoint and renders the fetched candidates whose
`current_stage` equals the module's `currentStage` variable. -/
inductive FilterOutcome where
  | refetchStage (rendered : List Candidate)
  | requirementFiltered (rendered : List Candidate)
deriving DecidableEq, Repr

/-- Embeds HR.handleRequirementFilter on its success paths, given the data each
of its two possible round-trips would return (`getByStage` for the empty
selection, `getByRequirement` otherwise).  The handler compares against the
module variable `currentStage`, which HR.init sets to the page slug
`getHRPage path` — never to a canonical stage name — so the embedding derives
the compared value from the page path exactly as init does. -/
def handleRequirementFilter (path reqId : String)
    (stageData reqData : List Candidate) : FilterOutcome :=
  let currentStage := getHRPage path
  if reqId == "" then .refetchStage stageData
  else .requirementFiltered (reqData.filter fun c => c.current_stage == currentStage)

/-! ## View projection: status badges (HR.getStatusBadge) -/

/-- The `statusClasses` lookup table of HR.getStatusBadge. -/
def statusClasses : List (String × String) :=
  [("Pending", "badge-warning"),
   ("Shortlisted", "badge-info"),
   ("Recommended", "badge-primary"),
   ("Approved", "badge-success"),
   ("Scheduled", "badge-info"),
   ("Confirmed", "badge-success"),
   ("Completed", "badge-success"),
   ("Rejected", "badge-danger"),
   ("No Show", "badge-danger")]

/-- The properties every plain object literal inherits from ECMAScript
`Object.prototype`; each holds a truthy value (a built-in function, or the
prototype object itself for the `__proto__` accessor), so a property read of
one of these names on `statusClasses` does not yield `undefined`. -/
def objectPrototypeKeys : List String :=
  ["constructor", "hasOwnProperty", "isPrototypeOf", "propertyIsEnumerable",
   "toLocaleString", "toString", "valueOf",
   "__defineGetter__", "__defineSetter__", "__lookupGetter__", "__lookupSetter__",
   "__proto__"]

/-- A value the JS property read `statusClasses[status]` can produce: one of
the literal's own string entries, a truthy non-string value inherited from
`Object.prototype`, or `undefined`. -/
inductive JsProp where
  | str (s : String)
  | inheritedFn (key : String)
  | undefinedVal
deriving DecidableEq, Repr

/-- Embeds the property read `statusClasses[status]`: own keys first, then the
`Object.prototype` chain, and `undefined` only when neither defines the name. -/
def statusClassesGet (status : String) : JsProp :=
  match statusClasses.lookup status with
  | some c => .str c
  | none =>
    if objectPrototypeKeys.contains status then .inheritedFn status else .undefinedVal

/-- Embeds `statusClasses[status] || 'badge-secondary'`: the default applies
only when the property read is `undefined`, since every own entry is a
non-empty string and every inherited `Object.prototype` value is truthy. -/
def badgeClassOf (status : String) : JsProp :=
  match statusClassesGet status with
  | .undefinedVal => .str "badge-secondary"
  | v => v

/-- Embeds HR.getStatusBadge, parameterised by the host's stringification of
the interpolated badge-class value: a template literal interpolates a string
as itself, while the text of an inherited built-in function is host-defined,
so it is kept abstract. -/
def getStatusBadge (stringify : JsProp → String) (status : String) : String :=
  "<span class=\"badge " ++ stringify (badgeClassOf status) ++ "\">" ++ status ++ "</span>"

/-! ## Session context: permissions (auth.js `hasPermission`) -/

/-- A JSON value as stored in a user's permissions object. -/
inductive JsVal where
  | bool (b : Bool)
  | str (s : String)
  | num (n : Int)
  | null
deriving DecidableEq, Repr

/-- The stored user as Auth.getUser returns it.  `permissions` is `none` when
the JS field is absent or null (falsy), otherwise an object mapping module
names to objects mapping action names to JSON values. -/
structure User where
  name : String
  role : String
  permissions : Option (List (String × List (String × JsVal)))
deriving DecidableEq, Repr

/-- Embeds Auth.hasPermission, with the current user (Auth.getUser()) passed
explicitly: no user is `false`; an admin role is unconditionally `true`;
otherwise the lookup `user.permissions[module][action]` must be defined and
strictly equal to the JS boolean `true`. -/
def hasPermission (user : Option User) (module action : String) : Bool :=
  match user with
  | none => false
  | some u =>
    if u.role == "admin" then true
    else
      match u.permissions with
      | none => false
      | some perms =>
        match perms.lookup module with
        | none => false
        | some modulePerms => modulePerms.lookup action == some (.bool true)

/-! ## Remote gateway (api.js `request` / `handleResponse`) -/

/-- An HTTP response as the gateway inspects it: status code and parsed body. -/
structure HttpResponse where
  status : Nat
  body : String
deriving DecidableEq, Repr

/-- Embeds `response.ok` of the Fetch API: status in the range 200-299. -/
def responseOk (r : HttpResponse) : Bool :=
  200 ≤ r.status && r.status < 300

/-- What a gateway call resolves to: the parsed body on success, a thrown
error carrying the HTTP status otherwise, or the thrown
`Session expired. Please login again.` error after a failed token refresh. -/
inductive RequestResult where
  | success (data : String)
  | httpError (status : Nat) (body : String)
  | sessionExpired
deriving DecidableEq, Repr

/-- Embeds api.js `handleResponse`: a non-ok response throws an error carrying
the response status; an ok response resolves to its body. -/
def handleResponse (r : HttpResponse) : RequestResult :=
  if responseOk r then .success r.body else .httpError r.status r.body

/-- The observable trace of one api.js `request` call: what it resolves or
throws, whether `Auth.logout()` was invoked, and how many `fetch` calls were
issued. -/
structure RequestTrace where
  result : RequestResult
  loggedOut : Bool
  fetches : Nat
deriving DecidableEq, Repr

/-- Embeds api.js `request`, parameterised by the first response, the outcome
of `Auth.refreshToken()` (which resolves `true` or `false`, never throws), and
the response a retry fetch would get.  A 401 first response triggers the single
refresh; on refresh success the request is fetched once more and that response
goes through `handleResponse`; on refresh failure `Auth.logout()` runs and the
session-expired error is thrown.  A non-401 first response goes straight to
`handleResponse`. -/
def request (first : HttpResponse) (refreshOk : Bool) (retry : HttpResponse) :
    RequestTrace :=
  if first.status == 401 then
    if refreshOk then
      { result := handleResponse retry, loggedOut := false, fetches := 2 }
    else
      { result := .sessionExpired, loggedOut := true, fetches := 1 }
  else
    { result := handleResponse first, loggedOut := false, fetches := 1 }

/-! ## Shared helper definitions and lemmas -/

/-- The underscore-delimited segments HR.parseFilename works on. -/
def segmentsOf (filename : String) : List String :=
  splitStr '_' (stripExt filename)

/-- The stage-insensitive summary of one file's classification: the parsed
fields when accepted, the reason when rejected (the accepted `ValidFile` also
carries the raw file, which is dropped here). -/
def classifySummary (f : FileEntry) : Sum (String × String × String × String) String :=
  match classifyFile f with
  | .accepted v => .inl (v.name, v.mobile, v.source, v.filename)
  | .rejected r => .inr r

theorem classifySummary_congr (f g : FileEntry)
    (hn : f.name = g.name) (hs : f.size = g.size) :
    classifySummary f = classifySummary g := by
  obtain ⟨fn, fsz, fc⟩ := f
  obtain ⟨gn, gsz, gc⟩ := g
  simp only at hn hs
  subst hn
  subst hs
  simp only [classifySummary, classifyFile]
  cases h1 : isValidFileType fn ALLOWED_CV_EXTENSIONS <;>
    cases h2 : isValidFileSize fsz <;>
    cases h3 : parseFilename fn <;>
    simp [h1, h2, h3]

theorem find_map_stage (cs : List Candidate) (stage candidateId : String) :
    ((cs.map fun c => { c with current_stage := stage }).find?
        (fun c => c.id == candidateId)).isSome =
      (cs.find? (fun c => c.id == candidateId)).isSome := by
  induction cs with
  | nil => rfl
  | cons c t ih =>
    simp only [List.map_cons, List.find?_cons, List.find?_map] at ih ⊢
    cases h : c.id == candidateId <;> simp_all [Function.comp]

theorem handleCandidateAction_eq (cs : List Candidate) (candidateId action : String) :
    handleCandidateAction cs candidateId action =
      if (cs.find? (fun c => c.id == candidateId)).isSome then
        match actionModals.lookup action with
        | some modalId => .openModal modalId
        | none => .noop
      else .noop := by
  cases h : cs.find? (fun c => c.id == candidateId) <;>
    simp [handleCandidateAction, h]

theorem handleRejectCandidate_eq (cs : List Candidate) (candidateId : String) :
    handleRejectCandidate cs candidateId =
      if (cs.find? (fun c => c.id == candidateId)).isSome then
        .openModal "rejection-modal"
      else .noop := by
  cases h : cs.find? (fun c => c.id == candidateId) <;>
    simp [handleRejectCandidate, h]

/-! ## Claim C1 (corrected)

The spec says a stage-changing action against a candidate already in a
terminal stage is refused with a `TerminalStateError` before any network
call.  No such error and no terminal-stage check exist anywhere in the
source: `handleCandidateAction` and `handleRejectCandidate` look the clicked
id up in the in-memory list and open the corresponding modal without ever
reading `current_stage`, and an absent id is a silent no-op. -/

/-- Claim C1, counterexample: a candidate whose `current_stage` is the
terminal stage `Selected` and who is present in the in-memory list has its
advance action and its reject action proceed to the normal modal flow — the
action is not refused, and no `TerminalStateError` exists in the code. -/
theorem C1_counterexample :
    terminalStage "Selected" = true ∧
    handleCandidateAction
      [⟨"c1", "Amit", "9876543210", "CRM", "Naukri", "Pending", "Selected", "REQ1", []⟩]
      "c1" "telephonic" = .openModal "telephonic-modal" ∧
    handleRejectCandidate
      [⟨"c1", "Amit", "9876543210", "CRM", "Naukri", "Pending", "Selected", "REQ1", []⟩]
      "c1" = .openModal "rejection-modal" := by decide

/-- Claim C1 as amended: the engine performs no terminal-stage check and has
no `TerminalStateError`.  Both candidate-action handlers are entirely
insensitive to `current_stage`; the only refusal behaviour is a silent no-op
(no modal opened, no network call started) when the clicked id is not in the
loaded in-memory list; and a modal opens exactly for ids present in the list
with an action in the `actionModals` table. -/
theorem C1_amended :
    (∀ (cs : List Candidate) (candidateId action stage : String),
      handleCandidateAction (cs.map fun c => { c with current_stage := stage })
          candidateId action =
        handleCandidateAction cs candidateId action) ∧
    (∀ (cs : List Candidate) (candidateId stage : String),
      handleRejectCandidate (cs.map fun c => { c with current_stage := stage })
          candidateId =
        handleRejectCandidate cs candidateId) ∧
    (∀ (cs : List Candidate) (candidateId action : String),
      (∀ c ∈ cs, c.id ≠ candidateId) →
        handleCandidateAction cs candidateId action = .noop ∧
        handleRejectCandidate cs candidateId = .noop) ∧
    (∀ (cs : List Candidate) (candidateId action modalId : String),
      handleCandidateAction cs candidateId action = .openModal modalId →
        actionModals.lookup action = some modalId ∧ ∃ c ∈ cs, c.id = candidateId) := by
  refine ⟨?_, ?_, ?_, ?_⟩
  · intro cs candidateId action stage
    rw [handleCandidateAction_eq, handleCandidateAction_eq, find_map_stage]
  · intro cs candidateId stage
    rw [handleRejectCandidate_eq, handleRejectCandidate_eq, find_map_stage]
  · intro cs candidateId action h
    have hf : cs.find? (fun c => c.id == candidateId) = none := by
      rw [List.find?_eq_none]
      intro c hc
      simpa using h c hc
    rw [handleCandidateAction_eq, handleRejectCandidate_eq, hf]
    exact ⟨rfl, rfl⟩
  · intro cs candidateId action modalId h
    rw [handleCandidateAction_eq] at h
    cases hf : cs.find? (fun c => c.id == candidateId) with
    | none => rw [hf] at h; simp at h
    | some c =>
      rw [hf] at h
      simp only [Option.isSome_some, if_pos] at h
      have hmem := List.mem_of_find?_eq_some hf
      have hid := List.find?_some hf
      refine ⟨?_, ⟨c, hmem, by simpa using hid⟩⟩
      cases hl : actionModals.lookup action with
      | none => rw [hl] at h; exact ActionOutcome.noConfusion h
      | some m =>
        rw [hl] at h
        cases h
        rfl

/-- Claim C1 witness: the amended theorem applied at concrete inputs — an
empty list makes both handlers no-ops, and an open modal implies a table hit
plus membership. -/
theorem C1_amended_witness :
    (handleCandidateAction [] "c1" "telephonic" = .noop ∧
     handleRejectCandidate [] "c1" = .noop) ∧
    (actionModals.lookup "telephonic" = some "telephonic-modal" ∧
     ∃ c ∈ [(⟨"c1", "Amit", "9876543210", "CRM", "Naukri", "Pending", "Selected",
              "REQ1", []⟩ : Candidate)], c.id = "c1") :=
  ⟨C1_amended.2.2.1 [] "c1" "telephonic" (by simp),
   C1_amended.2.2.2
     [⟨"c1", "Amit", "9876543210", "CRM", "Naukri", "Pending", "Selected", "REQ1", []⟩]
     "c1" "telephonic" "telephonic-modal" (by decide)⟩

/-! ## Claim C2 (confirmed) -/

/-- Claim C2: a failed advance persistence call leaves all local state
untouched — the in-memory candidate list, every candidate's `current_stage`
and every candidate's `timeline` equal their pre-call values (whether the
form was valid or not), and the local list is replaced only by data the
post-success refresh returns; a failed refresh likewise leaves the list
unchanged. -/
theorem C2_failed_advance_preserves_state :
    (∀ (st : HRState) (formValid : Bool) (errMsg : String)
        (refreshResponse : Except String (List Candidate)),
      handleTelephonicSubmit st formValid (.error errMsg) refreshResponse = st ∧
      (handleTelephonicSubmit st formValid (.error errMsg) refreshResponse).candidates =
        st.candidates ∧
      (handleTelephonicSubmit st formValid (.error errMsg) refreshResponse).candidates.map
          Candidate.current_stage = st.candidates.map Candidate.current_stage ∧
      (handleTelephonicSubmit st formValid (.error errMsg) refreshResponse).candidates.map
          Candidate.timeline = st.candidates.map Candidate.timeline) ∧
    (∀ (st : HRState) (data : List Candidate),
      handleTelephonicSubmit st true (.ok ()) (.ok data) = { candidates := data }) ∧
    (∀ (st : HRState) (formValid : Bool) (updateResult : Except String Unit)
        (errMsg : String),
      handleTelephonicSubmit st formValid updateResult (.error errMsg) = st) := by
  refine ⟨?_, ?_, ?_⟩
  · intro st formValid errMsg refreshResponse
    cases formValid <;> simp [handleTelephonicSubmit]
  · intro st data
    rfl
  · intro st formValid updateResult errMsg
    cases formValid <;> cases updateResult <;>
      simp [handleTelephonicSubmit, loadCandidatesByStage]

/-! ## Claim C3 (corrected)

The transparent success-on-retry half of the claim holds, and at most one
retry is ever issued.  But the code's logout-and-session-expired path is
taken when the token refresh fails, not when the retried request receives a
second `Unauthorized`: a 401 retry response goes through `handleResponse`
and is surfaced as an ordinary HTTP error with no logout. -/

/-- Claim C3, counterexample: a call that receives `Unauthorized`, refreshes
successfully, and receives `Unauthorized` again on the retry does not trigger
logout and does not surface the session-expired error — it surfaces an
ordinary HTTP 401 error, contradicting the claim's double-Unauthorized
branch. -/
theorem C3_counterexample :
    (request ⟨401, "x"⟩ true ⟨401, "denied"⟩).result = .httpError 401 "denied" ∧
    (request ⟨401, "x"⟩ true ⟨401, "denied"⟩).loggedOut = false ∧
    (request ⟨401, "x"⟩ true ⟨401, "denied"⟩).result ≠ .sessionExpired := by decide

/-- Claim C3 as amended: a first 401 followed by a successful refresh and a
successful retry returns the retry's result transparently with no logout; a
first 401 whose refresh fails triggers logout and the session-expired error
after a single fetch; a first 401 whose retry is again 401 surfaces an
ordinary HTTP 401 error with no logout; a non-401 first response is handled
directly; and no execution ever issues more than one retry (at most two
fetches). -/
theorem C3_amended :
    (∀ (first retry : HttpResponse) (refreshOk : Bool),
      (request first refreshOk retry).fetches ≤ 2) ∧
    (∀ (first retry : HttpResponse),
      first.status = 401 → responseOk retry = true →
        request first true retry = ⟨.success retry.body, false, 2⟩) ∧
    (∀ (first retry : HttpResponse),
      first.status = 401 →
        request first false retry = ⟨.sessionExpired, true, 1⟩) ∧
    (∀ (first retry : HttpResponse),
      first.status = 401 → retry.status = 401 →
        request first true retry = ⟨.httpError 401 retry.body, false, 2⟩) ∧
    (∀ (first retry : HttpResponse) (refreshOk : Bool),
      first.status ≠ 401 →
        request first refreshOk retry = ⟨handleResponse first, false, 1⟩) := by
  refine ⟨?_, ?_, ?_, ?_, ?_⟩
  · intro first retry refreshOk
    unfold request
    split_ifs <;> simp
  · intro first retry h hok
    simp [request, h, handleResponse, hok]
  · intro first retry h
    simp [request, h]
  · intro first retry h hr
    have hno : responseOk retry = false := by
      simp [responseOk, hr]
    simp [request, h, handleResponse, hno, hr]
  · intro first retry refreshOk h
    simp [request, h]

/-- Claim C3 witness: the amended theorem applied to concrete responses for
each branch — refresh-then-success, refresh failure, double 401, and a
non-401 first response. -/
theorem C3_amended_witness :
    request ⟨401, "x"⟩ true ⟨200, "ok"⟩ = ⟨.success "ok", false, 2⟩ ∧
    request ⟨401, "x"⟩ false ⟨200, "ok"⟩ = ⟨.sessionExpired, true, 1⟩ ∧
    request ⟨401, "x"⟩ true ⟨401, "no"⟩ = ⟨.httpError 401 "no", false, 2⟩ ∧
    request ⟨200, "fine"⟩ true ⟨500, "e"⟩ = ⟨handleResponse ⟨200, "fine"⟩, false, 1⟩ :=
  ⟨C3_amended.2.1 ⟨401, "x"⟩ ⟨200, "ok"⟩ rfl (by decide),
   C3_amended.2.2.1 ⟨401, "x"⟩ ⟨200, "ok"⟩ rfl,
   C3_amended.2.2.2.1 ⟨401, "x"⟩ ⟨401, "no"⟩ rfl rfl,
   C3_amended.2.2.2.2 ⟨200, "fine"⟩ ⟨500, "e"⟩ true (by decide)⟩

/-! ## Claim C4 (corrected)

The three named example filenames behave exactly as claimed, and the
segment-count rule is as claimed.  But the code trims whitespace from each
extracted field before validating and returning it, so acceptance is decided
by the trimmed second segment, not the raw one, and the returned fields are
the trimmed values. -/

/-- Claim C4, counterexample: the filename whose second underscore segment is
the eleven-character string of a space followed by ten digits is accepted
(the code trims before testing), contradicting the claim that parsing
succeeds only when the second segment is exactly ten digits and that the
returned mobile equals that segment. -/
theorem C4_counterexample :
    parseFilename "A_ 1234567890_B.pdf" = some ⟨"A", "1234567890", "B"⟩ ∧
    splitStr '_' (stripExt "A_ 1234567890_B.pdf") = ["A", " 1234567890", "B"] ∧
    isTenDigits " 1234567890" = false := by decide

/-- Claim C4 as amended: `parseFilename` strips the final extension, splits on
underscores, and succeeds exactly when there are at least three segments and
the whitespace-trimmed second segment is exactly ten digits, yielding the
trimmed first segment as name, the trimmed second segment as mobile, and the
remaining segments rejoined with underscores and trimmed as source; the three
example filenames of the claim behave as stated. -/
theorem C4_amended :
    (∀ filename : String,
      ((parseFilename filename).isSome = true ↔
        3 ≤ (segmentsOf filename).length ∧
          isTenDigits (trimStr ((segmentsOf filename).getD 1 "")) = true)) ∧
    (∀ (filename : String) (p : ParsedFilename),
      parseFilename filename = some p →
        p.name = trimStr ((segmentsOf filename).getD 0 "") ∧
        p.mobile = trimStr ((segmentsOf filename).getD 1 "") ∧
        p.source = trimStr (joinWith '_' ((segmentsOf filename).drop 2))) ∧
    parseFilename "Jane_9876543210_Naukri.pdf" = some ⟨"Jane", "9876543210", "Naukri"⟩ ∧
    parseFilename "Jane_123_Naukri.pdf" = none ∧
    parseFilename "JaneOnly.pdf" = none := by
  refine ⟨?_, ?_, by decide, by decide, by decide⟩
  · intro filename
    rcases h : splitStr '_' (stripExt filename) with _ | ⟨p0, _ | ⟨p1, _ | ⟨p2, rest⟩⟩⟩ <;>
      simp [parseFilename, segmentsOf, h]
  · intro filename p hp
    rcases h : splitStr '_' (stripExt filename) with _ | ⟨p0, _ | ⟨p1, _ | ⟨p2, rest⟩⟩⟩ <;>
      simp only [parseFilename, h] at hp <;> try simp at hp
    obtain ⟨-, hq⟩ := hp
    subst hq
    simp [segmentsOf, h, List.getD]

/-- Claim C4 witness: the amended theorem's field characterization applied to
the claim's accepted example filename. -/
theorem C4_amended_witness :
    (⟨"Jane", "9876543210", "Naukri"⟩ : ParsedFilename).name =
      trimStr ((segmentsOf "Jane_9876543210_Naukri.pdf").getD 0 "") ∧
    (⟨"Jane", "9876543210", "Naukri"⟩ : ParsedFilename).mobile =
      trimStr ((segmentsOf "Jane_9876543210_Naukri.pdf").getD 1 "") ∧
    (⟨"Jane", "9876543210", "Naukri"⟩ : ParsedFilename).source =
      trimStr (joinWith '_' ((segmentsOf "Jane_9876543210_Naukri.pdf").drop 2)) :=
  C4_amended.2.1 "Jane_9876543210_Naukri.pdf" ⟨"Jane", "9876543210", "Naukri"⟩ (by decide)

/-! ## Claim C5 (confirmed) -/

/-- Claim C5: intake classification sends every file of a batch to exactly one
of two disjoint lists; a file is accepted if and only if its extension is in
the allowed CV set, its size is at most the configured 5 MB maximum, and its
filename parses; an accepted entry carries the parsed name, mobile, source and
the original file; a rejected entry carries a human-readable reason; and the
classification of each file is independent of the rest of the batch (the
lists of a concatenated batch are the concatenations of the per-part lists,
and each list is a per-file `filterMap` of the input). -/
theorem C5_batch_classification :
    (∀ f : FileEntry,
      (∃ v, classifyFile f = .accepted v) ↔
        (isValidFileType f.name ALLOWED_CV_EXTENSIONS = true ∧
         isValidFileSize f.size = true ∧
         (parseFilename f.name).isSome = true)) ∧
    (∀ (f : FileEntry) (v : ValidFile), classifyFile f = .accepted v →
      v.file = f ∧ v.filename = f.name ∧
      parseFilename f.name = some ⟨v.name, v.mobile, v.source⟩) ∧
    (∀ f : FileEntry,
      ¬((∃ v, classifyFile f = .accepted v) ∧ (∃ r, classifyFile f = .rejected r))) ∧
    (∀ f : FileEntry,
      (∃ v, classifyFile f = .accepted v) ∨ (∃ r, classifyFile f = .rejected r)) ∧
    (∀ xs ys : List FileEntry,
      handleFiles (xs ++ ys) =
        ((handleFiles xs).1 ++ (handleFiles ys).1,
         (handleFiles xs).2 ++ (handleFiles ys).2)) ∧
    (∀ files : List FileEntry,
      (handleFiles files).1 = files.filterMap (fun f =>
          match classifyFile f with | .accepted v => some v | .rejected _ => none) ∧
      (handleFiles files).2 = files.filterMap (fun f =>
          match classifyFile f with | .accepted _ => none | .rejected r => some r)) := by
  refine ⟨?_, ?_, ?_, ?_, ?_, ?_⟩
  · intro f
    cases hvt : isValidFileType f.name ALLOWED_CV_EXTENSIONS <;>
      cases hvs : isValidFileSize f.size <;>
      cases hp : parseFilename f.name <;>
      simp [classifyFile, hvt, hvs, hp]
  · intro f v hv
    cases hvt : isValidFileType f.name ALLOWED_CV_EXTENSIONS <;>
      cases hvs : isValidFileSize f.size <;>
      cases hp : parseFilename f.name <;>
      simp [classifyFile, hvt, hvs, hp] at hv <;>
      simp [← hv, hp]
  · intro f
    rintro ⟨⟨v, hv⟩, ⟨r, hr⟩⟩
    rw [hv] at hr
    exact Classified.noConfusion hr
  · intro f
    cases h : classifyFile f with
    | accepted v => exact .inl ⟨v, rfl⟩
    | rejected r => exact .inr ⟨r, rfl⟩
  · intro xs ys
    induction xs with
    | nil => simp [handleFiles]
    | cons f fs ih =>
      cases hc : classifyFile f <;>
        simp [handleFiles, hc, ih]
  · intro files
    induction files with
    | nil => simp [handleFiles]
    | cons f fs ih =>
      cases hc : classifyFile f <;>
        simp [handleFiles, hc, ih.1, ih.2]

/-- Claim C5 witness: the acceptance characterization and the carried-fields
property applied to one concrete well-formed file. -/
theorem C5_batch_classification_witness :
    (⟨⟨"Jane_9876543210_Naukri.pdf", 1000, "raw"⟩, "Jane", "9876543210", "Naukri",
        "Jane_9876543210_Naukri.pdf"⟩ : ValidFile).file =
      (⟨"Jane_9876543210_Naukri.pdf", 1000, "raw"⟩ : FileEntry) ∧
    (⟨⟨"Jane_9876543210_Naukri.pdf", 1000, "raw"⟩, "Jane", "9876543210", "Naukri",
        "Jane_9876543210_Naukri.pdf"⟩ : ValidFile).filename =
      (⟨"Jane_9876543210_Naukri.pdf", 1000, "raw"⟩ : FileEntry).name ∧
    parseFilename (⟨"Jane_9876543210_Naukri.pdf", 1000, "raw"⟩ : FileEntry).name =
      some ⟨"Jane", "9876543210", "Naukri"⟩ :=
  C5_batch_classification.2.1 ⟨"Jane_9876543210_Naukri.pdf", 1000, "raw"⟩
    ⟨⟨"Jane_9876543210_Naukri.pdf", 1000, "raw"⟩, "Jane", "9876543210", "Naukri",
      "Jane_9876543210_Naukri.pdf"⟩ (by decide)

/-! ## Claim C6 (corrected)

The search is pure over the in-memory list, but the predicate is not
case-insensitive over the mobile field: the code lowercases the query, the
name and the role, yet matches the mobile field raw.  And the
requirement-filter half fails too: the module variable `currentStage` the
filter compares against is set once by init to the page slug returned by
`getHRPage` (`telephonic`, `walk-ins`, ...), never to a canonical stage name,
so `c.current_stage === currentStage` never holds for a candidate carrying a
canonical stage — the code never re-filters to the page's stage. -/

theorem getHRPage_mem_pageSlugs (path : String) : getHRPage path ∈ pageSlugs := by
  unfold getHRPage
  split_ifs <;> simp [pageSlugs]

theorem pageSlug_not_stage : ∀ s ∈ pageSlugs, s ∉ CANDIDATE_STAGES := by decide

/-- Claim C6, counterexample: for a candidate whose mobile contains uppercase
letters, the case-insensitive predicate the claim describes matches the query
while the code's search returns the empty list; and on the telephonic page
(slug `telephonic`) the requirement filter discards a fetched candidate whose
`current_stage` is the page's stage `Telephonic`, rendering the empty list
instead of re-filtering to the page's stage. -/
theorem C6_counterexample :
    ciSearchMatch "AB"
      ⟨"c1", "X", "98AB765432", "Y", "s", "Pending", "Telephonic", "R1", []⟩ = true ∧
    handleCandidateSearch
      [⟨"c1", "X", "98AB765432", "Y", "s", "Pending", "Telephonic", "R1", []⟩]
      "AB" = [] ∧
    getHRPage "/pages/hr/telephonic.html" = "telephonic" ∧
    handleRequirementFilter "/pages/hr/telephonic.html" "REQ1" []
      [⟨"c1", "Amit", "9876543210", "CRM", "Naukri", "Pending", "Telephonic", "REQ1", []⟩] =
      .requirementFiltered [] := by decide

/-- Claim C6 as amended: the text search is a pure predicate over the
last-loaded in-memory list — a candidate appears in the result exactly when it
is in the list and either the lowercased query is empty or the lowercased
query occurs in the lowercased name, in the raw mobile (case-sensitively), or
in the lowercased role.  The requirement filter with a non-empty requirement
id renders the requirement-scoped fetch result filtered against the module's
`currentStage` variable, which always holds a page slug and never a canonical
stage name; hence over fetch results carrying canonical stage names the
rendered list is always empty.  With an empty id it reloads the stage list
remotely. -/
theorem C6_amended :
    (∀ (cs : List Candidate) (input : String) (c : Candidate),
      c ∈ handleCandidateSearch cs input ↔
        c ∈ cs ∧ (lowerStr input = "" ∨
          (containsStr (lowerStr c.name) (lowerStr input) ||
           containsStr c.mobile (lowerStr input) ||
           containsStr (lowerStr c.role) (lowerStr input)) = true)) ∧
    (∀ (path reqId : String) (stageData reqData : List Candidate),
      reqId ≠ "" →
        handleRequirementFilter path reqId stageData reqData =
          .requirementFiltered
            (reqData.filter fun c => c.current_stage == getHRPage path)) ∧
    (∀ path : String,
      getHRPage path ∈ pageSlugs ∧ getHRPage path ∉ CANDIDATE_STAGES) ∧
    (∀ (path reqId : String) (stageData reqData : List Candidate),
      reqId ≠ "" →
      (∀ c ∈ reqData, c.current_stage ∈ CANDIDATE_STAGES) →
        handleRequirementFilter path reqId stageData reqData =
          .requirementFiltered []) ∧
    (∀ (path : String) (stageData reqData : List Candidate),
      handleRequirementFilter path "" stageData reqData =
        .refetchStage stageData) := by
  refine ⟨?_, ?_, ?_, ?_, ?_⟩
  · intro cs input c
    unfold handleCandidateSearch
    cases h : lowerStr input == "" with
    | true =>
      have he : lowerStr input = "" := by simpa using h
      simp [he]
    | false =>
      have hne : ¬ lowerStr input = "" := by simpa using h
      simp [h, hne, List.mem_filter]
  · intro path reqId stageData reqData h
    simp [handleRequirementFilter, h]
  · intro path
    have hm := getHRPage_mem_pageSlugs path
    exact ⟨hm, pageSlug_not_stage _ hm⟩
  · intro path reqId stageData reqData h hall
    have hne : (reqId == "") = false := by simpa using h
    have hns : getHRPage path ∉ CANDIDATE_STAGES :=
      pageSlug_not_stage _ (getHRPage_mem_pageSlugs path)
    have hfil : reqData.filter (fun c => c.current_stage == getHRPage path) = [] := by
      rw [List.filter_eq_nil_iff]
      intro c hc
      simp only [beq_iff_eq]
      intro he
      exact hns (he ▸ hall c hc)
    simp [handleRequirementFilter, hne, hfil]
  · intro path stageData reqData
    rfl

/-- Claim C6 witness: the amended empty-refilter branch applied to the
telephonic page path and a concrete requirement-scoped fetch result whose
candidates carry canonical stage names. -/
theorem C6_amended_witness :
    handleRequirementFilter "/pages/hr/telephonic.html" "REQ1" []
      [⟨"c1", "Amit", "9876543210", "CRM", "Naukri", "Pending", "Telephonic", "REQ1", []⟩,
       ⟨"c2", "Ravi", "9123456780", "MIS", "Apna", "Pending", "Tests", "REQ1", []⟩] =
      .requirementFiltered [] :=
  C6_amended.2.2.2.1 "/pages/hr/telephonic.html" "REQ1" []
    [⟨"c1", "Amit", "9876543210", "CRM", "Naukri", "Pending", "Telephonic", "REQ1", []⟩,
     ⟨"c2", "Ravi", "9123456780", "MIS", "Apna", "Pending", "Tests", "REQ1", []⟩]
    (by decide) (by decide)

/-! ## Claim C7 (confirmed) -/

/-- Claim C7: the CV-upload submit issues the gateway upload exactly when the
accepted-file set is non-empty and a non-empty requirement id is selected;
an empty file set or an empty requirement id is a validation warning returned
before any network call. -/
theorem C7_upload_validation :
    ∀ (selectedFiles : List ValidFile) (requirementId : String),
      (handleCVUpload selectedFiles requirementId =
          .upload selectedFiles requirementId ↔
        ¬(selectedFiles = [] ∨ requirementId = "")) ∧
      handleCVUpload [] requirementId = .warnSelectFiles ∧
      handleCVUpload selectedFiles "" =
        (if selectedFiles = [] then .warnSelectFiles else .warnSelectRequirement) := by
  intro selectedFiles requirementId
  refine ⟨?_, rfl, ?_⟩
  · cases selectedFiles with
    | nil => simp [handleCVUpload]
    | cons f fs =>
      cases h : requirementId == "" with
      | true =>
        have he : requirementId = "" := by simpa using h
        simp [handleCVUpload, he]
      | false =>
        have hne : ¬ requirementId = "" := by simpa using h
        simp [handleCVUpload, h, hne]
  · cases selectedFiles <;> simp [handleCVUpload]

/-! ## Claim C8 (confirmed) -/

/-- Claim C8: intake classification is deterministic and depends only on the
input files' names and sizes — two batches agreeing pointwise on name and
size produce identical rejection lists and identical accepted parses (the
accepted entries differ only in the opaque carried file payload) — and it is
independent of all prior module state: the previously selected files are only
prepended, never consulted.  No remote state appears anywhere in the
classification. -/
theorem C8_classification_deterministic :
    (∀ (fs1 fs2 : List FileEntry),
      fs1.map (fun f => (f.name, f.size)) = fs2.map (fun f => (f.name, f.size)) →
        (handleFiles fs1).2 = (handleFiles fs2).2 ∧
        (handleFiles fs1).1.map (fun v => (v.name, v.mobile, v.source, v.filename)) =
          (handleFiles fs2).1.map (fun v => (v.name, v.mobile, v.source, v.filename))) ∧
    (∀ (selected : List ValidFile) (files : List FileEntry),
      handleFilesState selected files =
        (selected ++ (handleFiles files).1, (handleFiles files).2)) := by
  constructor
  · intro fs1
    induction fs1 with
    | nil =>
      intro fs2 h
      cases fs2 with
      | nil => exact ⟨rfl, rfl⟩
      | cons g u => simp at h
    | cons f t ih =>
      intro fs2 h
      cases fs2 with
      | nil => simp at h
      | cons g u =>
        simp only [List.map_cons, List.cons.injEq, Prod.mk.injEq] at h
        obtain ⟨⟨hn, hs⟩, htl⟩ := h
        have hsum := classifySummary_congr f g hn hs
        have ihu := ih u htl
        cases hc : classifyFile f <;> cases hg : classifyFile g <;>
          simp only [classifySummary, hc, hg] at hsum <;>
          simp_all [handleFiles, hc, hg]
  · intro selected files
    rfl

/-- Claim C8 witness: two single-file batches with the same name and size but
different payloads classify identically. -/
theorem C8_classification_deterministic_witness :
    (handleFiles [⟨"Jane_9876543210_Naukri.pdf", 1000, "payloadA"⟩]).2 =
      (handleFiles [⟨"Jane_9876543210_Naukri.pdf", 1000, "payloadB"⟩]).2 ∧
    (handleFiles [⟨"Jane_9876543210_Naukri.pdf", 1000, "payloadA"⟩]).1.map
        (fun v => (v.name, v.mobile, v.source, v.filename)) =
      (handleFiles [⟨"Jane_9876543210_Naukri.pdf", 1000, "payloadB"⟩]).1.map
        (fun v => (v.name, v.mobile, v.source, v.filename)) :=
  C8_classification_deterministic.1
    [⟨"Jane_9876543210_Naukri.pdf", 1000, "payloadA"⟩]
    [⟨"Jane_9876543210_Naukri.pdf", 1000, "payloadB"⟩] (by decide)

/-! ## Claim C9 (corrected)

Statuses in the table and ordinary unknown statuses behave as claimed, but
`statusClasses` is a plain object literal, so the property read
`statusClasses[status]` consults the `Object.prototype` chain: a status named
after a prototype member (`toString`, `constructor`, `__proto__`, ...) finds
the inherited truthy value, which survives the `||` default and becomes the
badge class — not `badge-secondary` — falsifying the universal default
clause. -/

/-- Claim C9, counterexample: the status `toString` is not a key of the
`statusClasses` table, yet its badge class is the value inherited from
`Object.prototype`, not the default `badge-secondary` class the claim
promises for every status outside the table. -/
theorem C9_counterexample :
    statusClasses.lookup "toString" = none ∧
    badgeClassOf "toString" = .inheritedFn "toString" ∧
    badgeClassOf "toString" ≠ .str "badge-secondary" := by decide

/-- Claim C9 as amended: a status that is a key of the fixed `statusClasses`
table gets the table's badge class (in particular `Pending`, `Rejected` and
`Confirmed` are in the table); a status that is neither a table key nor the
name of an `Object.prototype` member gets the default `badge-secondary`
class; but a status naming an `Object.prototype` member gets the inherited
truthy value as its badge class instead of the default. -/
theorem C9_amended :
    (∀ (status cls : String) (stringify : JsProp → String),
      statusClasses.lookup status = some cls →
      (∀ s, stringify (.str s) = s) →
        badgeClassOf status = .str cls ∧
        getStatusBadge stringify status =
          "<span class=\"badge " ++ cls ++ "\">" ++ status ++ "</span>") ∧
    (∀ (status : String) (stringify : JsProp → String),
      statusClasses.lookup status = none →
      objectPrototypeKeys.contains status = false →
      (∀ s, stringify (.str s) = s) →
        badgeClassOf status = .str "badge-secondary" ∧
        getStatusBadge stringify status =
          "<span class=\"badge badge-secondary\">" ++ status ++ "</span>") ∧
    (∀ status : String,
      statusClasses.lookup status = none →
      objectPrototypeKeys.contains status = true →
        badgeClassOf status = .inheritedFn status) ∧
    statusClasses.lookup "Pending" = some "badge-warning" ∧
    statusClasses.lookup "Rejected" = some "badge-danger" ∧
    statusClasses.lookup "Confirmed" = some "badge-success" := by
  refine ⟨?_, ?_, ?_, by decide, by decide, by decide⟩
  · intro status cls stringify h hs
    have hb : badgeClassOf status = .str cls := by
      simp [badgeClassOf, statusClassesGet, h]
    exact ⟨hb, by simp [getStatusBadge, hb, hs]⟩
  · intro status stringify h hk hs
    have hk2 : status ∉ objectPrototypeKeys := by simpa using hk
    have hb : badgeClassOf status = .str "badge-secondary" := by
      simp [badgeClassOf, statusClassesGet, h, hk2]
    exact ⟨hb, by simp [getStatusBadge, hb, hs]⟩
  · intro status h hk
    have hk2 : status ∈ objectPrototypeKeys := by simpa using hk
    simp [badgeClassOf, statusClassesGet, h, hk2]

/-- Claim C9 witness: the amended theorem applied, with a concrete
stringification, to the known status `Pending`, to the plain unknown status
`On Hold`, and to the prototype-key status `toString`. -/
theorem C9_amended_witness :
    getStatusBadge
        (fun p => match p with | .str s => s | .inheritedFn k => k | .undefinedVal => "undefined")
        "Pending" =
      "<span class=\"badge " ++ "badge-warning" ++ "\">" ++ "Pending" ++ "</span>" ∧
    getStatusBadge
        (fun p => match p with | .str s => s | .inheritedFn k => k | .undefinedVal => "undefined")
        "On Hold" =
      "<span class=\"badge badge-secondary\">" ++ "On Hold" ++ "</span>" ∧
    badgeClassOf "toString" = .inheritedFn "toString" :=
  ⟨(C9_amended.1 "Pending" "badge-warning"
      (fun p => match p with | .str s => s | .inheritedFn k => k | .undefinedVal => "undefined")
      (by decide) (fun s => rfl)).2,
   (C9_amended.2.1 "On Hold"
      (fun p => match p with | .str s => s | .inheritedFn k => k | .undefinedVal => "undefined")
      (by decide) (by decide) (fun s => rfl)).2,
   C9_amended.2.2.1 "toString" (by decide) (by decide)⟩

/-! ## Claim C10 (confirmed) -/

/-- Claim C10: `hasPermission` returns false when no user is stored; returns
true unconditionally when the stored user's role is `admin`, whatever the
permissions object holds; and otherwise returns true exactly when the
permissions object is present and its `module` entry's `action` value is the
JSON boolean `true` (strict equality — any other value, including the string
form, fails). -/
theorem C10_hasPermission :
    (∀ module action : String, hasPermission none module action = false) ∧
    (∀ (u : User) (module action : String), u.role = "admin" →
      hasPermission (some u) module action = true) ∧
    (∀ (u : User) (module action : String), u.role ≠ "admin" →
      (hasPermission (some u) module action = true ↔
        ∃ perms modulePerms, u.permissions = some perms ∧
          perms.lookup module = some modulePerms ∧
          modulePerms.lookup action = some (.bool true))) := by
  refine ⟨?_, ?_, ?_⟩
  · intro module action
    rfl
  · intro u module action h
    simp [hasPermission, h]
  · intro u module action h
    have hb : (u.role == "admin") = false := by simpa using h
    cases hp : u.permissions with
    | none => simp [hasPermission, hb, hp]
    | some perms =>
      cases hl : perms.lookup module with
      | none => simp [hasPermission, hb, hp, hl]
      | some modulePerms =>
        simp [hasPermission, hb, hp, hl]

/-- Claim C10 witness: the permission theorem applied to a concrete admin
user with no permissions object and to a concrete non-admin user whose
permissions grant `candidates.view`. -/
theorem C10_hasPermission_witness :
    hasPermission (some ⟨"Asha", "admin", none⟩) "candidates" "view" = true ∧
    (hasPermission
        (some ⟨"Bela", "hr", some [("candidates", [("view", .bool true)])]⟩)
        "candidates" "view" = true ↔
      ∃ perms modulePerms,
        (⟨"Bela", "hr", some [("candidates", [("view", .bool true)])]⟩ : User).permissions =
          some perms ∧
        perms.lookup "candidates" = some modulePerms ∧
        modulePerms.lookup "view" = some (.bool true)) :=
  ⟨C10_hasPermission.2.1 ⟨"Asha", "admin", none⟩ "candidates" "view" rfl,
   C10_hasPermission.2.2 ⟨"Bela", "hr", some [("candidates", [("view", .bool true)])]⟩
     "candidates" "view" (by decide)⟩

end HRMS
